import Mathlib

set_option autoImplicit false

/-!
Shallow embedding of the golobby/container IoC registry (src/container.go,
package `github.com/golobby/container/v3/pkg/container`) and proofs about
its binding table and resolution engine.

Go `interface{}` values holding resolved concretes are modelled by
`Option Val`: `none` is the nil interface value, and a non-nil concrete
carries the `reflect.Type` identity of its abstraction plus an allocation
identity, so that "same instance" (pointer identity) is plain equality of
`Val`s.  Every invocation of a user resolver draws a fresh allocation
identity from a counter threaded through the state.  User functions
(resolvers, receivers) are modelled by their reflective shape: parameter
types, return arity, and the outcome their body produces when called.  The
reflective recursion `binding.make` / `Container.invoke` /
`Container.arguments` is embedded with a fuel parameter; a `none` result
means the fuel ran out (the Go code has no cycle detection and a cyclic
dependency graph recurses until the stack is exhausted).
-/

namespace GoContainer

/-- reflect.Type identity of an abstraction. -/
abbrev Ty := Nat

/-- binding name; the empty string is the unnamed (default) binding. -/
abbrev Name := String

/-- a non-nil `interface{}` value: its dynamic type and allocation identity. -/
structure Val where
  ty : Ty
  id : Nat
deriving DecidableEq, Repr

/-- reflective shape and behaviour of a user resolver function: parameter
types (`NumIn`/`In`), return arity (`NumOut`), first return type (`Out(0)`),
and what a call of its body yields: a nil (`retNil`) or fresh non-nil first
value, and the error put in the second result slot, if any. -/
structure Resolver where
  params : List Ty
  numOut : Nat
  retTy : Ty
  retNil : Bool
  retErr : Option String
deriving DecidableEq, Repr

/-- errors returned by the container operations, by kind (messages elided). -/
inductive Err where
  | resolverNotFunc
  | invalidResolverSig
  | selfDependency
  | unbound (t : Ty)
  | userErr (s : String)
  | wrapped (t : Ty) (e : Err)
  | invalidFunction
  | invalidReceiverSig
  | invalidAbstraction
  | invalidStructure
  | invalidFieldTag (field : String)
  | cannotMakeField (field : String)
deriving DecidableEq, Repr

/-- binding holds a resolver and a concrete (if already resolved). -/
structure Binding where
  resolver : Resolver
  concrete : Option Val
  isSingleton : Bool
deriving DecidableEq, Repr

/-- the inner Go map `map[string]*binding`. -/
abbrev Inner := List (Name × Binding)

/-- the Container: `map[reflect.Type]map[string]*binding`. -/
abbrev Container := List (Ty × Inner)

def innerFind : Inner → Name → Option Binding
  | [], _ => none
  | (m, b) :: rest, n => if m = n then some b else innerFind rest n

def innerSet : Inner → Name → Binding → Inner
  | [], n, b => [(n, b)]
  | (m, b0) :: rest, n, b => if m = n then (n, b) :: rest else (m, b0) :: innerSet rest n b

def ctrFindTy : Container → Ty → Option Inner
  | [], _ => none
  | (u, m) :: rest, t => if u = t then some m else ctrFindTy rest t

def ctrSetInner : Container → Ty → Inner → Container
  | [], t, m => [(t, m)]
  | (u, m0) :: rest, t, m => if u = t then (t, m) :: rest else (u, m0) :: ctrSetInner rest t m

/-- the Go double map lookup `c[t][n]`: a missing outer entry reads as an
empty inner map, so the lookup misses either way. -/
def ctrLookup (c : Container) (t : Ty) (n : Name) : Option Binding :=
  match ctrFindTy c t with
  | none => none
  | some m => innerFind m n

/-- Container.bind lines 224-228: create the inner map for the resolver's
first return type when it is absent. -/
def ctrEnsureTy (c : Container) (t : Ty) : Container :=
  match ctrFindTy c t with
  | some _ => c
  | none => ctrSetInner c t []

/-- the Go map assignment `c[t][n] = b`. -/
def ctrSetEntry (c : Container) (t : Ty) (n : Name) (b : Binding) : Container :=
  match ctrFindTy c t with
  | some m => ctrSetInner c t (innerSet m n b)
  | none => ctrSetInner c t [(n, b)]

/-- the write `b.concrete = v` through the `*binding` pointer obtained from
`c[t][n]`; a no-op when there is no such binding. -/
def ctrSetConcrete (c : Container) (t : Ty) (n : Name) (v : Option Val) : Container :=
  match ctrFindTy c t with
  | none => c
  | some m =>
    match innerFind m n with
    | none => c
    | some b => ctrSetInner c t (innerSet m n { b with concrete := v })

/-- machine state: the registry plus the fresh-allocation counter. -/
structure St where
  ctr : Container
  fresh : Nat
deriving DecidableEq, Repr

/-- New (container.go 213-215): an empty container. -/
def New : Container := []

/-- Container.Reset (container.go 309-313): delete every key. -/
def Reset (_c : Container) : Container := []

mutual

/-- binding.make (container.go 195-206): return the cached concrete when
present; otherwise invoke the resolver and, for singleton bindings, store
the returned value in the cache — even when the resolver also returned an
error.  `t`, `n` locate the `*binding` pointer inside the registry. -/
def make (fuel : Nat) (s : St) (t : Ty) (n : Name) (b : Binding) :
    Option ((Option Val × Option Err) × St) :=
  match b.concrete with
  | some v => some ((some v, none), s)
  | none =>
    match fuel with
    | 0 => none
    | Nat.succ f =>
      match invoke f s b.resolver with
      | none => none
      | some ((retVal, err), s1) =>
        if b.isSingleton then
          some ((retVal, err), { s1 with ctr := ctrSetConcrete s1.ctr t n retVal })
        else
          some ((retVal, err), s1)

/-- Container.invoke (container.go 271-284): resolve the arguments, call the
function, and surface a second error-typed result when there is one. -/
def invoke (fuel : Nat) (s : St) (r : Resolver) :
    Option ((Option Val × Option Err) × St) :=
  match fuel with
  | 0 => none
  | Nat.succ f =>
    match arguments f s r.params with
    | none => none
    | some (Except.error e, s1) => some ((none, some e), s1)
    | some (Except.ok _, s1) =>
      some ((if r.retNil then none else some ⟨r.retTy, s1.fresh⟩,
             if r.numOut = 2 then Option.map Err.userErr r.retErr else none),
            { s1 with fresh := s1.fresh + 1 })

/-- Container.arguments (container.go 287-306): resolve every parameter from
the unnamed binding of its type, failing fast on a missing binding or on a
resolution error. -/
def arguments (fuel : Nat) (s : St) (params : List Ty) :
    Option (Except Err (List (Option Val)) × St) :=
  match fuel with
  | 0 => none
  | Nat.succ f =>
    match params with
    | [] => some (Except.ok [], s)
    | t :: ts =>
      match ctrLookup s.ctr t ("") with
      | none => some (Except.error (Err.unbound t), s)
      | some b =>
        match make f s t ("") b with
        | none => none
        | some ((_, some e), s1) => some (Except.error e, s1)
        | some ((inst, none), s1) =>
          match arguments f s1 ts with
          | none => none
          | some (Except.error e, s2) => some (Except.error e, s2)
          | some (Except.ok vs, s2) => some (Except.ok (inst :: vs), s2)

end

/-- Container.validateResolverFunction (container.go 252-267). -/
def validateResolverFunction (r : Resolver) : Option Err :=
  if r.numOut = 0 ∨ r.numOut > 2 then some Err.invalidResolverSig
  else if r.retTy ∈ r.params then some Err.selfDependency
  else none

/-- argument to an operation that expects a function value: either not a
function at all (or a nil interface), or a function of the given shape. -/
inductive GoFunc where
  | notFunc
  | fn (r : Resolver)
deriving DecidableEq, Repr

/-- Container.bind (container.go 218-250). -/
def bind (fuel : Nat) (s : St) (resolver : GoFunc) (name : Name)
    (isSingleton : Bool) (isLazy : Bool) : Option (Option Err × St) :=
  match resolver with
  | GoFunc.notFunc => some (some Err.resolverNotFunc, s)
  | GoFunc.fn r =>
    let s0 : St := if r.numOut > 0 then { s with ctr := ctrEnsureTy s.ctr r.retTy } else s
    match validateResolverFunction r with
    | some e => some (some e, s0)
    | none =>
      if isLazy then
        let b : Binding := { resolver := r, concrete := none, isSingleton := isSingleton }
        some (none, { s0 with ctr := ctrSetEntry s0.ctr r.retTy name b })
      else
        match invoke fuel s0 r with
        | none => none
        | some ((_, some e), s1) => some (some e, s1)
        | some ((cv, none), s1) =>
          let b : Binding :=
            if isSingleton then { resolver := r, concrete := cv, isSingleton := true }
            else { resolver := r, concrete := none, isSingleton := false }
          some (none, { s1 with ctr := ctrSetEntry s1.ctr r.retTy name b })

/-- Container.Singleton (container.go 318-320). -/
def Singleton (fuel : Nat) (s : St) (resolver : GoFunc) : Option (Option Err × St) :=
  bind fuel s resolver ("") true false

/-- Container.SingletonLazy (container.go 326-328). -/
def SingletonLazy (fuel : Nat) (s : St) (resolver : GoFunc) : Option (Option Err × St) :=
  bind fuel s resolver ("") true true

/-- Container.NamedSingleton (container.go 331-333). -/
def NamedSingleton (fuel : Nat) (s : St) (name : Name) (resolver : GoFunc) :
    Option (Option Err × St) :=
  bind fuel s resolver name true false

/-- Container.NamedSingletonLazy (container.go 337-339). -/
def NamedSingletonLazy (fuel : Nat) (s : St) (name : Name) (resolver : GoFunc) :
    Option (Option Err × St) :=
  bind fuel s resolver name true true

/-- Container.Transient (container.go 344-346). -/
def Transient (fuel : Nat) (s : St) (resolver : GoFunc) : Option (Option Err × St) :=
  bind fuel s resolver ("") false false

/-- Container.TransientLazy (container.go 352-354). -/
def TransientLazy (fuel : Nat) (s : St) (resolver : GoFunc) : Option (Option Err × St) :=
  bind fuel s resolver ("") false true

/-- Container.NamedTransient (container.go 357-359). -/
def NamedTransient (fuel : Nat) (s : St) (name : Name) (resolver : GoFunc) :
    Option (Option Err × St) :=
  bind fuel s resolver name false false

/-- Container.NamedTransientLazy (container.go 363-365). -/
def NamedTransientLazy (fuel : Nat) (s : St) (name : Name) (resolver : GoFunc) :
    Option (Option Err × St) :=
  bind fuel s resolver name false true

/-- argument to Resolve/NamedResolve: the reflective view of the passed
`interface{}`: a nil interface, a non-pointer value, or a pointer to a slot
of abstraction type `ty` currently holding `slot`. -/
inductive Abstraction where
  | nilIface
  | nonPtr
  | ptr (ty : Ty) (slot : Option Val)
deriving DecidableEq, Repr

/-- outcome of an exported operation: a normal return carrying an optional
error, or an uncontrolled reflect panic. -/
inductive COut where
  | ret (e : Option Err)
  | panicked
deriving DecidableEq, Repr

/-- Container.NamedResolve (container.go 402-424).  The returned
`Abstraction` is the caller's argument after the call: on success the
pointed-to slot holds the resolved concrete.  `reflect.ValueOf(instance)`
of a nil instance is the zero Value, and `Set` on it panics. -/
def NamedResolve (fuel : Nat) (s : St) (abstraction : Abstraction) (name : Name) :
    Option ((COut × Abstraction) × St) :=
  match abstraction with
  | Abstraction.nilIface => some ((COut.ret (some Err.invalidAbstraction), abstraction), s)
  | Abstraction.nonPtr => some ((COut.ret (some Err.invalidAbstraction), abstraction), s)
  | Abstraction.ptr t slot =>
    match ctrLookup s.ctr t name with
    | some b =>
      match make fuel s t name b with
      | none => none
      | some ((inst, none), s1) =>
        match inst with
        | some v => some ((COut.ret none, Abstraction.ptr t (some v)), s1)
        | none => some ((COut.panicked, Abstraction.ptr t slot), s1)
      | some ((_, some e), s1) =>
        some ((COut.ret (some (Err.wrapped t e)), Abstraction.ptr t slot), s1)
    | none => some ((COut.ret (some (Err.unbound t)), Abstraction.ptr t slot), s)

/-- Container.Resolve (container.go 397-399). -/
def Resolve (fuel : Nat) (s : St) (abstraction : Abstraction) :
    Option ((COut × Abstraction) × St) :=
  NamedResolve fuel s abstraction ("")

/-- return shape of a receiver passed to Call, with the outcome of its body
where Call inspects it: no results; one declared-error result whose returned
value is `e` (`none` is a nil error); one non-error result of a nilable kind
(chan, func, interface, map, pointer, slice) that came back nil or not; one
non-error result of a non-nilable kind (e.g. int), on which
`reflect.Value.IsNil` panics; or two or more results. -/
inductive RetShape where
  | unitRet
  | errRet (e : Option String)
  | nilableRet (isNil : Bool)
  | valueRet
  | multiRet
deriving DecidableEq, Repr

/-- reflective shape of a receiver function passed to Call. -/
structure Receiver where
  params : List Ty
  rets : RetShape
deriving DecidableEq, Repr

/-- argument to Call: a nil or non-function value, or a function. -/
inductive GoCallable where
  | notFunc
  | fn (r : Receiver)
deriving DecidableEq, Repr

/-- Container.Call (container.go 369-394).  `reflect.Value.Call` panics when
one of the argument values is the zero Value (a nil instance). -/
def Call (fuel : Nat) (s : St) (function : GoCallable) : Option (COut × St) :=
  match function with
  | GoCallable.notFunc => some (COut.ret (some Err.invalidFunction), s)
  | GoCallable.fn r =>
    match arguments fuel s r.params with
    | none => none
    | some (Except.error e, s1) => some (COut.ret (some e), s1)
    | some (Except.ok vs, s1) =>
      if none ∈ vs then some (COut.panicked, s1)
      else
        match r.rets with
        | RetShape.unitRet => some (COut.ret none, s1)
        | RetShape.errRet none => some (COut.ret none, s1)
        | RetShape.errRet (some e) => some (COut.ret (some (Err.userErr e)), s1)
        | RetShape.nilableRet true => some (COut.ret none, s1)
        | RetShape.nilableRet false => some (COut.ret (some Err.invalidReceiverSig), s1)
        | RetShape.valueRet => some (COut.panicked, s1)
        | RetShape.multiRet => some (COut.ret (some Err.invalidReceiverSig), s1)

/-- a struct field as seen by Fill: identifier, declared type, the value of
the `container` struct tag when present, and the field's current value. -/
structure FieldV where
  fname : String
  fty : Ty
  tag : Option String
  fval : Option Val
deriving DecidableEq, Repr

/-- argument to Fill: a nil interface, a non-pointer, a pointer to a
non-struct, or a pointer to a struct with the given fields. -/
inductive StructArg where
  | nilIface
  | nonPtr
  | ptrNonStruct
  | ptrStruct (fields : List FieldV)
deriving DecidableEq, Repr

/-- field loop of Container.Fill (container.go 438-466); yields the fields
after the walk — earlier fields stay written when a later one fails.
Writing a nil instance into a field panics (zero Value passed to `Set`). -/
def fillLoop (fuel : Nat) (s : St) : List FieldV → Option ((COut × List FieldV) × St)
  | [] => some ((COut.ret none, []), s)
  | fld :: rest =>
    match fld.tag with
    | none =>
      match fillLoop fuel s rest with
      | none => none
      | some ((out, rest1), s1) => some ((out, fld :: rest1), s1)
    | some t =>
      match (if t = "type" then some ("") else
             if t = "name" then some fld.fname else none : Option Name) with
      | none => some ((COut.ret (some (Err.invalidFieldTag fld.fname)), fld :: rest), s)
      | some nm =>
        match ctrLookup s.ctr fld.fty nm with
        | some b =>
          match make fuel s fld.fty nm b with
          | none => none
          | some ((_, some e), s1) => some ((COut.ret (some e), fld :: rest), s1)
          | some ((inst, none), s1) =>
            match inst with
            | none => some ((COut.panicked, fld :: rest), s1)
            | some v =>
              match fillLoop fuel s1 rest with
              | none => none
              | some ((out, rest1), s2) =>
                some ((out, { fld with fval := some v } :: rest1), s2)
        | none => some ((COut.ret (some (Err.cannotMakeField fld.fname)), fld :: rest), s)

/-- Container.Fill (container.go 427-473). -/
def Fill (fuel : Nat) (s : St) (sarg : StructArg) : Option ((COut × StructArg) × St) :=
  match sarg with
  | StructArg.ptrStruct fields =>
    match fillLoop fuel s fields with
    | none => none
    | some ((out, fields1), s1) => some ((out, StructArg.ptrStruct fields1), s1)
  | _ => some ((COut.ret (some Err.invalidStructure), sarg), s)

/-- witness scenario: a dependency-free eager resolver returning
abstraction 0. -/
def rEager : Resolver :=
  { params := [], numOut := 1, retTy := 0, retNil := false, retErr := none }

/-- witness scenario: a resolver for abstraction 0 that returns a non-nil
concrete together with a non-nil error. -/
def rBoth : Resolver :=
  { params := [], numOut := 2, retTy := 0, retNil := false, retErr := some "boom" }

/-- witness scenario: a binding of abstraction 0 already holding a cached
singleton instance. -/
def bCached : Binding :=
  { resolver := rEager, concrete := some { ty := 0, id := 0 }, isSingleton := true }

/-- witness scenario: registry with the cached singleton bound at the
unnamed entry of abstraction 0. -/
def sCached : St := { ctr := [(0, [("", bCached)])], fresh := 1 }

/-- witness scenario: an uncached transient binding of abstraction 0. -/
def bTrans : Binding :=
  { resolver := rEager, concrete := none, isSingleton := false }

/-- witness scenario: registry with the transient binding at the unnamed
entry of abstraction 0. -/
def sTrans : St := { ctr := [(0, [("", bTrans)])], fresh := 0 }

/-- witness scenario: an uncached lazy singleton of abstraction 0 whose
resolver returns both a concrete and an error. -/
def bLazyBoth : Binding :=
  { resolver := rBoth, concrete := none, isSingleton := true }

/-- witness scenario: registry with the lazy error-returning singleton at
the unnamed entry of abstraction 0. -/
def sLazyBoth : St := { ctr := [(0, [("", bLazyBoth)])], fresh := 0 }

/-- counterexample scenario: the binding of abstraction 0 after its
error-returning resolver ran once: the concrete is cached. -/
def bBoomCached : Binding :=
  { resolver := rBoth, concrete := some { ty := 0, id := 0 }, isSingleton := true }

/-- counterexample scenario: the registry state after resolving the lazy
error-returning singleton once: the error was surfaced, yet the concrete is
cached. -/
def sAfterBoom : St := { ctr := [(0, [("", bBoomCached)])], fresh := 1 }

/-- counterexample scenario: an uncached lazy singleton of abstraction 0
with the plain eager resolver. -/
def bLazyEager : Binding :=
  { resolver := rEager, concrete := none, isSingleton := true }

/-- counterexample scenario: registry holding only the lazy singleton of
abstraction 0. -/
def sDepLazy : St := { ctr := [(0, [("", bLazyEager)])], fresh := 0 }

/-- counterexample scenario: a resolver for abstraction 1 that depends on
abstraction 0 and returns an error. -/
def rDep : Resolver :=
  { params := [0], numOut := 2, retTy := 1, retNil := false, retErr := some "x" }

/-- counterexample scenario: the lazy singleton of abstraction 0 after its
cache got populated. -/
def bEagerCached : Binding :=
  { resolver := rEager, concrete := some { ty := 0, id := 0 }, isSingleton := true }

/-- counterexample scenario: the registry after `bind` of `rDep` failed:
the dependency's cache is populated and an empty bucket for abstraction 1
exists, although no binding entry was stored. -/
def sDepAfter : St := { ctr := [(0, [("", bEagerCached)]), (1, [])], fresh := 2 }

/-- witness scenario: the empty registry. -/
def sEmpty : St := { ctr := [], fresh := 0 }

/-- witness scenario: a second cached singleton instance of abstraction 0,
for a named binding. -/
def bNamedCached : Binding :=
  { resolver := rEager, concrete := some { ty := 0, id := 1 }, isSingleton := true }

/-- witness scenario: registry with cached singletons of abstraction 0
under the empty name and under the name "rounded". -/
def sTwoNames : St :=
  { ctr := [(0, [("", bCached), ("rounded", bNamedCached)])], fresh := 2 }

/-- witness scenario: a resolver whose parameter type equals its own return
type (a directly self-dependent resolver). -/
def rSelf : Resolver :=
  { params := [0], numOut := 1, retTy := 0, retNil := false, retErr := none }

/-- the bind-time data of a binding entry: its resolver and its mode.
Resolution may populate singleton caches, but never changes this part. -/
def skel (b : Binding) : Resolver × Bool := (b.resolver, b.isSingleton)

/-- what the resolution engine preserves: the fresh counter never
decreases, every entry keeps its resolver and mode (entries are neither
added, removed nor rebound), and transient entries are untouched. -/
def Pres (s s' : St) : Prop :=
  s.fresh ≤ s'.fresh ∧
  (∀ t n, Option.map skel (ctrLookup s'.ctr t n) = Option.map skel (ctrLookup s.ctr t n)) ∧
  (∀ t n b, ctrLookup s.ctr t n = some b → b.isSingleton = false →
    ctrLookup s'.ctr t n = some b)

theorem Pres.refl (s : St) : Pres s s :=
  ⟨Nat.le_refl _, fun _ _ => rfl, fun _ _ _ h _ => h⟩

theorem Pres.trans {s1 s2 s3 : St} (h12 : Pres s1 s2) (h23 : Pres s2 s3) : Pres s1 s3 := by
  obtain ⟨hf12, hs12, ht12⟩ := h12
  obtain ⟨hf23, hs23, ht23⟩ := h23
  refine ⟨Nat.le_trans hf12 hf23, fun t n => (hs23 t n).trans (hs12 t n), ?_⟩
  intro t n b hb hsing
  exact ht23 t n b (ht12 t n b hb hsing) hsing

theorem innerFind_innerSet (m : Inner) (n : Name) (b : Binding) (n' : Name) :
    innerFind (innerSet m n b) n' = if n = n' then some b else innerFind m n' := by
  induction m with
  | nil => simp [innerSet, innerFind]
  | cons hd tl ih =>
    obtain ⟨k, b0⟩ := hd
    by_cases hk : k = n
    · subst hk
      by_cases hk' : k = n' <;> simp [innerSet, innerFind, hk']
    · by_cases hk' : k = n'
      · subst hk'
        have hne : n ≠ k := fun h => hk h.symm
        simp [innerSet, innerFind, hk, hne]
      · simp [innerSet, innerFind, hk, hk', ih]

theorem ctrFindTy_ctrSetInner (c : Container) (t : Ty) (m : Inner) (t' : Ty) :
    ctrFindTy (ctrSetInner c t m) t' = if t = t' then some m else ctrFindTy c t' := by
  induction c with
  | nil => simp [ctrSetInner, ctrFindTy]
  | cons hd tl ih =>
    obtain ⟨u, m0⟩ := hd
    by_cases hu : u = t
    · subst hu
      by_cases hu' : u = t' <;> simp [ctrSetInner, ctrFindTy, hu']
    · by_cases hu' : u = t'
      · subst hu'
        have hne : t ≠ u := fun h => hu h.symm
        simp [ctrSetInner, ctrFindTy, hu, hne]
      · simp [ctrSetInner, ctrFindTy, hu, hu', ih]

theorem ctrLookup_ctrSetEntry (c : Container) (t : Ty) (n : Name) (b : Binding)
    (t' : Ty) (n' : Name) :
    ctrLookup (ctrSetEntry c t n b) t' n' =
      if t = t' ∧ n = n' then some b else ctrLookup c t' n' := by
  unfold ctrSetEntry ctrLookup
  by_cases ht : t = t'
  · subst ht
    cases hft : ctrFindTy c t with
    | none =>
      simp [hft, ctrFindTy_ctrSetInner, innerFind, innerFind_innerSet]
    | some m =>
      simp [hft, ctrFindTy_ctrSetInner, innerFind_innerSet]
  · have hne : ¬(t = t' ∧ n = n') := fun h => ht h.1
    cases hft : ctrFindTy c t with
    | none => simp [hft, ctrFindTy_ctrSetInner, ht, hne]
    | some m => simp [hft, ctrFindTy_ctrSetInner, ht, hne]

theorem ctrLookup_ctrEnsureTy (c : Container) (t : Ty) (t' : Ty) (n' : Name) :
    ctrLookup (ctrEnsureTy c t) t' n' = ctrLookup c t' n' := by
  unfold ctrEnsureTy ctrLookup
  cases hft : ctrFindTy c t with
  | some m => rfl
  | none =>
    by_cases ht : t = t'
    · subst ht
      simp [ctrFindTy_ctrSetInner, hft, innerFind]
    · simp [ctrFindTy_ctrSetInner, ht]

theorem ctrLookup_ctrSetConcrete (c : Container) (t : Ty) (n : Name) (v : Option Val)
    (t' : Ty) (n' : Name) :
    ctrLookup (ctrSetConcrete c t n v) t' n' =
      if t = t' ∧ n = n' then
        Option.map (fun b => { b with concrete := v }) (ctrLookup c t n)
      else ctrLookup c t' n' := by
  unfold ctrSetConcrete
  cases hft : ctrFindTy c t with
  | none =>
    by_cases h : t = t' ∧ n = n'
    · obtain ⟨ht, hn⟩ := h
      subst ht; subst hn
      simp [ctrLookup, hft]
    · simp [h]
  | some m =>
    cases hfb : innerFind m n with
    | none =>
      by_cases h : t = t' ∧ n = n'
      · obtain ⟨ht, hn⟩ := h
        subst ht; subst hn
        simp [ctrLookup, hft, hfb]
      · simp [h, hfb]
    | some b =>
      by_cases ht : t = t'
      · subst ht
        by_cases hn : n = n'
        · subst hn
          simp [ctrLookup, hft, hfb, ctrFindTy_ctrSetInner, innerFind_innerSet]
        · have hne : ¬(t = t ∧ n = n') := fun h => hn h.2
          simp [ctrLookup, hft, hne, hfb, ctrFindTy_ctrSetInner, innerFind_innerSet, hn]
      · have hne : ¬(t = t' ∧ n = n') := fun h => ht h.1
        simp [ctrLookup, hne, hfb, ctrFindTy_ctrSetInner, ht]

theorem skel_map_setConcrete (o : Option Binding) (v : Option Val) :
    Option.map skel (Option.map (fun b => { b with concrete := v }) o) = Option.map skel o := by
  cases o <;> rfl

theorem Pres.freshSucc (s : St) : Pres s { s with fresh := s.fresh + 1 } :=
  ⟨Nat.le_succ _, fun _ _ => rfl, fun _ _ _ h _ => h⟩

theorem Pres.lookup_skel {s s' : St} (h : Pres s s') {t : Ty} {n : Name} {b : Binding}
    (hb : ctrLookup s.ctr t n = some b) :
    ∃ b', ctrLookup s'.ctr t n = some b' ∧ b'.resolver = b.resolver ∧
      b'.isSingleton = b.isSingleton := by
  have hsk := h.2.1 t n
  rw [hb] at hsk
  cases hl : ctrLookup s'.ctr t n with
  | none => rw [hl] at hsk; simp [skel] at hsk
  | some b' =>
    rw [hl] at hsk
    simp [skel, Prod.ext_iff] at hsk
    exact ⟨b', rfl, hsk.1, hsk.2⟩

theorem Pres.setConcreteSingleton (s : St) (t : Ty) (n : Name) (v : Option Val) (b : Binding)
    (hb : ctrLookup s.ctr t n = some b) (hsing : b.isSingleton = true) :
    Pres s { s with ctr := ctrSetConcrete s.ctr t n v } := by
  refine ⟨Nat.le_refl _, ?_, ?_⟩
  · intro t' n'
    show Option.map skel (ctrLookup (ctrSetConcrete s.ctr t n v) t' n') = _
    rw [ctrLookup_ctrSetConcrete]
    by_cases h : t = t' ∧ n = n'
    · obtain ⟨ht, hn⟩ := h
      subst ht; subst hn
      rw [if_pos ⟨rfl, rfl⟩, skel_map_setConcrete]
    · rw [if_neg h]
  · intro t' n' bb hbb hfalse
    show ctrLookup (ctrSetConcrete s.ctr t n v) t' n' = some bb
    rw [ctrLookup_ctrSetConcrete]
    by_cases h : t = t' ∧ n = n'
    · obtain ⟨ht, hn⟩ := h
      subst ht; subst hn
      rw [hb] at hbb
      cases hbb
      rw [hsing] at hfalse
      exact absurd hfalse (by simp)
    · rw [if_neg h]; exact hbb

/-- resolution may populate singleton caches but otherwise leaves the
registry alone: no entry is added, removed or rebound, transient entries
are untouched, and the allocation counter never decreases.  Proved for the
three mutually recursive engine functions at once by induction on fuel. -/
theorem enginePres (fuel : Nat) :
    (∀ s t n b out s', ctrLookup s.ctr t n = some b →
      make fuel s t n b = some (out, s') → Pres s s') ∧
    (∀ s r out s', invoke fuel s r = some (out, s') → Pres s s') ∧
    (∀ s ps out s', arguments fuel s ps = some (out, s') → Pres s s') := by
  induction fuel with
  | zero =>
    refine ⟨?_, ?_, ?_⟩
    · intro s t n b out s' _ h
      simp only [make] at h
      split at h
      · simp only [Option.some.injEq, Prod.mk.injEq] at h
        obtain ⟨rfl, rfl⟩ := h
        exact Pres.refl _
      · exact Option.noConfusion h
    · intro s r out s' h
      simp only [invoke] at h
      exact Option.noConfusion h
    · intro s ps out s' h
      simp only [arguments] at h
      exact Option.noConfusion h
  | succ f ih =>
    obtain ⟨ihM, ihI, ihA⟩ := ih
    refine ⟨?_, ?_, ?_⟩
    · intro s t n b out s' hb h
      simp only [make] at h
      split at h
      · simp only [Option.some.injEq, Prod.mk.injEq] at h
        obtain ⟨rfl, rfl⟩ := h
        exact Pres.refl _
      · split at h
        · exact Option.noConfusion h
        · rename_i retVal err s1 hi
          have hps1 : Pres s s1 := ihI s b.resolver (retVal, err) s1 hi
          split at h
          · rename_i hs
            simp only [Option.some.injEq, Prod.mk.injEq] at h
            obtain ⟨rfl, rfl⟩ := h
            obtain ⟨b1, hb1, -, hb1s⟩ := hps1.lookup_skel hb
            have hbs : b.isSingleton = true := hs
            exact hps1.trans
              (Pres.setConcreteSingleton s1 t n retVal b1 hb1 (hb1s.trans hbs))
          · simp only [Option.some.injEq, Prod.mk.injEq] at h
            obtain ⟨rfl, rfl⟩ := h
            exact hps1
    · intro s r out s' h
      simp only [invoke] at h
      split at h
      · exact Option.noConfusion h
      · rename_i e s1 ha
        have hps1 : Pres s s1 := ihA s r.params (Except.error e) s1 ha
        simp only [Option.some.injEq, Prod.mk.injEq] at h
        obtain ⟨rfl, rfl⟩ := h
        exact hps1
      · rename_i vs s1 ha
        have hps1 : Pres s s1 := ihA s r.params (Except.ok vs) s1 ha
        simp only [Option.some.injEq, Prod.mk.injEq] at h
        obtain ⟨rfl, rfl⟩ := h
        exact hps1.trans (Pres.freshSucc s1)
    · intro s ps out s' h
      simp only [arguments] at h
      split at h
      · simp only [Option.some.injEq, Prod.mk.injEq] at h
        obtain ⟨rfl, rfl⟩ := h
        exact Pres.refl _
      · rename_i t ts
        split at h
        · simp only [Option.some.injEq, Prod.mk.injEq] at h
          obtain ⟨rfl, rfl⟩ := h
          exact Pres.refl _
        · rename_i b hl
          split at h
          · exact Option.noConfusion h
          · rename_i fst e s1 hm
            have hps1 : Pres s s1 := ihM s t ("") b (fst, some e) s1 hl hm
            simp only [Option.some.injEq, Prod.mk.injEq] at h
            obtain ⟨rfl, rfl⟩ := h
            exact hps1
          · rename_i inst s1 hm
            have hps1 : Pres s s1 := ihM s t ("") b (inst, none) s1 hl hm
            split at h
            · exact Option.noConfusion h
            · rename_i e s2 ha
              have hps2 : Pres s1 s2 := ihA s1 ts (Except.error e) s2 ha
              simp only [Option.some.injEq, Prod.mk.injEq] at h
              obtain ⟨rfl, rfl⟩ := h
              exact hps1.trans hps2
            · rename_i vs s2 ha
              have hps2 : Pres s1 s2 := ihA s1 ts (Except.ok vs) s2 ha
              simp only [Option.some.injEq, Prod.mk.injEq] at h
              obtain ⟨rfl, rfl⟩ := h
              exact hps1.trans hps2

theorem presMake {fuel : Nat} {s : St} {t : Ty} {n : Name} {b : Binding}
    {out : Option Val × Option Err} {s' : St}
    (hb : ctrLookup s.ctr t n = some b) (h : make fuel s t n b = some (out, s')) :
    Pres s s' :=
  (enginePres fuel).1 s t n b out s' hb h

theorem presInvoke {fuel : Nat} {s : St} {r : Resolver}
    {out : Option Val × Option Err} {s' : St}
    (h : invoke fuel s r = some (out, s')) : Pres s s' :=
  (enginePres fuel).2.1 s r out s' h

theorem presArguments {fuel : Nat} {s : St} {ps : List Ty}
    {out : Except Err (List (Option Val))} {s' : St}
    (h : arguments fuel s ps = some (out, s')) : Pres s s' :=
  (enginePres fuel).2.2 s ps out s' h

/-- a cached binding resolves to its cached concrete with no state change at
all: the resolver is not invoked and the registry and the allocation
counter stay as they were. -/
theorem make_cached {fuel : Nat} {s : St} {t : Ty} {n : Name} {b : Binding} {v : Val}
    (hv : b.concrete = some v) : make fuel s t n b = some ((some v, none), s) := by
  cases fuel <;> simp only [make, hv]

/-- resolving an uncached singleton entry writes whatever first value the
invocation produced — successful or not — into the entry's cache. -/
theorem make_sets_cache {fuel : Nat} {s : St} {t : Ty} {n : Name} {b : Binding}
    {rv : Option Val} {re : Option Err} {s' : St}
    (hb : ctrLookup s.ctr t n = some b) (hsing : b.isSingleton = true)
    (hnone : b.concrete = none)
    (h : make fuel s t n b = some ((rv, re), s')) :
    ∃ b', ctrLookup s'.ctr t n = some b' ∧ b'.concrete = rv ∧
      b'.resolver = b.resolver ∧ b'.isSingleton = true := by
  cases fuel with
  | zero =>
    simp only [make, hnone] at h
    exact Option.noConfusion h
  | succ f =>
    simp only [make, hnone] at h
    split at h
    · exact Option.noConfusion h
    · rename_i retVal err s1 hi
      have hps1 : Pres s s1 := presInvoke hi
      obtain ⟨b1, hb1, hb1r, hb1s⟩ := hps1.lookup_skel hb
      rw [if_pos hsing] at h
      simp only [Option.some.injEq, Prod.mk.injEq] at h
      obtain ⟨⟨h1, h2⟩, h3⟩ := h
      refine ⟨{ b1 with concrete := rv }, ?_, rfl, hb1r, hb1s.trans hsing⟩
      rw [← h3]
      show ctrLookup (ctrSetConcrete s1.ctr t n retVal) t n = _
      rw [ctrLookup_ctrSetConcrete, if_pos ⟨rfl, rfl⟩, hb1, h1]
      rfl

/-- a non-nil value produced by an invocation is freshly allocated: its
identity is at least the starting counter and below the final counter. -/
theorem invoke_val_bound {fuel : Nat} {s : St} {r : Resolver} {v : Val}
    {e : Option Err} {s' : St}
    (h : invoke fuel s r = some ((some v, e), s')) :
    s.fresh ≤ v.id ∧ v.id < s'.fresh := by
  cases fuel with
  | zero =>
    simp only [invoke] at h
    exact Option.noConfusion h
  | succ f =>
    simp only [invoke] at h
    split at h
    · exact Option.noConfusion h
    · rename_i e1 s1 ha
      simp only [Option.some.injEq, Prod.mk.injEq] at h
      exact absurd h.1.1 (by simp)
    · rename_i vs s1 ha
      have hps1 : Pres s s1 := presArguments ha
      simp only [Option.some.injEq, Prod.mk.injEq] at h
      obtain ⟨⟨hv, he⟩, rfl⟩ := h
      by_cases hn : r.retNil
      · rw [if_pos hn] at hv
        exact Option.noConfusion hv
      · rw [if_neg hn] at hv
        have hx := Option.some_inj.mp hv
        subst hx
        exact ⟨hps1.1, Nat.lt_succ_self _⟩

/-- a non-nil value produced by resolving an uncached entry is freshly
allocated during that resolution. -/
theorem make_val_bound {fuel : Nat} {s : St} {t : Ty} {n : Name} {b : Binding}
    {v : Val} {e : Option Err} {s' : St}
    (hnone : b.concrete = none) (h : make fuel s t n b = some ((some v, e), s')) :
    s.fresh ≤ v.id ∧ v.id < s'.fresh := by
  cases fuel with
  | zero =>
    simp only [make, hnone] at h
    exact Option.noConfusion h
  | succ f =>
    simp only [make, hnone] at h
    split at h
    · exact Option.noConfusion h
    · rename_i retVal err s1 hi
      split at h
      · simp only [Option.some.injEq, Prod.mk.injEq] at h
        obtain ⟨⟨rfl, rfl⟩, rfl⟩ := h
        have hbd := invoke_val_bound hi
        exact ⟨hbd.1, hbd.2⟩
      · simp only [Option.some.injEq, Prod.mk.injEq] at h
        obtain ⟨⟨rfl, rfl⟩, rfl⟩ := h
        exact invoke_val_bound hi

theorem namedResolve_ok_inv {fuel : Nat} {s : St} {t : Ty} {n : Name}
    {slot : Option Val} {v : Val} {s1 : St}
    (h : NamedResolve fuel s (Abstraction.ptr t slot) n =
      some ((COut.ret none, Abstraction.ptr t (some v)), s1)) :
    ∃ b, ctrLookup s.ctr t n = some b ∧ make fuel s t n b = some ((some v, none), s1) := by
  simp only [NamedResolve] at h
  split at h
  · rename_i b hl
    split at h
    · exact Option.noConfusion h
    · rename_i inst sx hm
      split at h
      · rename_i v' 
        simp only [Option.some.injEq, Prod.mk.injEq, Abstraction.ptr.injEq,
          Option.some.injEq] at h
        obtain ⟨⟨-, -, rfl⟩, rfl⟩ := h
        exact ⟨b, hl, hm⟩
      · simp at h
    · simp at h
  · simp at h

theorem namedResolve_of_make {fuel : Nat} {s : St} {t : Ty} {n : Name} {b : Binding}
    {v : Val} {s1 : St} (slot : Option Val)
    (hb : ctrLookup s.ctr t n = some b)
    (hm : make fuel s t n b = some ((some v, none), s1)) :
    NamedResolve fuel s (Abstraction.ptr t slot) n =
      some ((COut.ret none, Abstraction.ptr t (some v)), s1) := by
  simp only [NamedResolve, hb, hm]

/-- C1: for every singleton binding (eager or lazy), once a resolution of
the (type, name) entry succeeds with instance `v`, the entry's cache holds
exactly `v`; every later resolution of that entry — through `make`, which
is the single path used by Resolve, NamedResolve, Call argument resolution
and Fill — returns the identical instance `v` and leaves the whole state
(registry and allocation counter) unchanged, so the resolver is not
invoked again; in particular a later NamedResolve yields `v` again, a later
Call-style argument resolution of the unnamed entry yields `[v]`, and a
later Fill of a `type`-tagged field of that type writes `v`. -/
theorem C1_singleton_identity {fuel : Nat} {s : St} {t : Ty} {n : Name} {b : Binding}
    {slot : Option Val} {v : Val} {s1 : St}
    (hb : ctrLookup s.ctr t n = some b) (hsing : b.isSingleton = true)
    (h : NamedResolve fuel s (Abstraction.ptr t slot) n =
      some ((COut.ret none, Abstraction.ptr t (some v)), s1)) :
    (∃ b1, ctrLookup s1.ctr t n = some b1 ∧ b1.concrete = some v ∧
      b1.isSingleton = true ∧ b1.resolver = b.resolver) ∧
    (∀ fuel' b1, ctrLookup s1.ctr t n = some b1 →
      make fuel' s1 t n b1 = some ((some v, none), s1)) ∧
    (∀ fuel' slot', NamedResolve fuel' s1 (Abstraction.ptr t slot') n =
      some ((COut.ret none, Abstraction.ptr t (some v)), s1)) ∧
    (n = ("") → ∀ fuel', arguments (fuel' + 2) s1 [t] =
      some (Except.ok [some v], s1)) ∧
    (n = ("") → ∀ fuel' fnm fv, fillLoop fuel' s1
        [{ fname := fnm, fty := t, tag := some ("type"), fval := fv }] =
      some ((COut.ret none,
        [{ fname := fnm, fty := t, tag := some ("type"), fval := some v }]), s1)) := by
  obtain ⟨b0, hl0, hm0⟩ := namedResolve_ok_inv h
  rw [hb] at hl0
  cases hl0
  have hcache : ∃ b1, ctrLookup s1.ctr t n = some b1 ∧ b1.concrete = some v ∧
      b1.isSingleton = true ∧ b1.resolver = b.resolver := by
    cases hc : b.concrete with
    | some w =>
      have := @make_cached fuel s t n b w hc
      rw [this] at hm0
      simp only [Option.some.injEq, Prod.mk.injEq] at hm0
      obtain ⟨⟨hw, -⟩, rfl⟩ := hm0
      exact ⟨b, hb, by rw [hc, hw], hsing, rfl⟩
    | none =>
      obtain ⟨b1, hb1, hb1c, hb1r, hb1s⟩ := make_sets_cache hb hsing hc hm0
      exact ⟨b1, hb1, hb1c, hb1s, hb1r⟩
  obtain ⟨b1, hb1, hb1c, hb1s, hb1r⟩ := hcache
  have hmk : ∀ fuel' bx, ctrLookup s1.ctr t n = some bx →
      make fuel' s1 t n bx = some ((some v, none), s1) := by
    intro fuel' bx hbx
    rw [hb1] at hbx
    cases hbx
    exact make_cached hb1c
  refine ⟨⟨b1, hb1, hb1c, hb1s, hb1r⟩, hmk, ?_, ?_, ?_⟩
  · intro fuel' slot'
    exact namedResolve_of_make slot' hb1 (hmk fuel' b1 hb1)
  · intro hn fuel'
    subst hn
    show arguments (fuel' + 1 + 1) s1 [t] = _
    simp only [arguments, hb1, hmk (fuel' + 1) b1 hb1]
  · intro hn fuel' fnm fv
    subst hn
    simp only [fillLoop, if_true, hb1, hmk fuel' b1 hb1]

/-- C1 witness: in a registry where abstraction 0 has a cached unnamed
singleton instance, resolving returns that instance and a repeated
resolution returns it again with the state unchanged. -/
theorem C1_singleton_identity_witness :
    NamedResolve 3 sCached (Abstraction.ptr 0 none) ("") =
      some ((COut.ret none, Abstraction.ptr 0 (some { ty := 0, id := 0 })), sCached) :=
  (@C1_singleton_identity 1 sCached 0 ("") bCached none { ty := 0, id := 0 } sCached
    rfl rfl rfl).2.2.1 3 none

theorem presNamedResolve {fuel : Nat} {s : St} {a : Abstraction} {nm : Name}
    {res : COut × Abstraction} {s' : St}
    (h : NamedResolve fuel s a nm = some (res, s')) : Pres s s' := by
  cases a with
  | nilIface =>
    simp only [NamedResolve, Option.some.injEq, Prod.mk.injEq] at h
    obtain ⟨-, rfl⟩ := h
    exact Pres.refl _
  | nonPtr =>
    simp only [NamedResolve, Option.some.injEq, Prod.mk.injEq] at h
    obtain ⟨-, rfl⟩ := h
    exact Pres.refl _
  | ptr t slot =>
    simp only [NamedResolve] at h
    split at h
    · rename_i b hl
      split at h
      · exact Option.noConfusion h
      · rename_i inst sx hm
        split at h
        · simp only [Option.some.injEq, Prod.mk.injEq] at h
          obtain ⟨-, rfl⟩ := h
          exact presMake hl hm
        · simp only [Option.some.injEq, Prod.mk.injEq] at h
          obtain ⟨-, rfl⟩ := h
          exact presMake hl hm
      · rename_i fst e sx hm
        simp only [Option.some.injEq, Prod.mk.injEq] at h
        obtain ⟨-, rfl⟩ := h
        exact presMake hl hm
    · simp only [Option.some.injEq, Prod.mk.injEq] at h
      obtain ⟨-, rfl⟩ := h
      exact Pres.refl _

theorem presCall {fuel : Nat} {s : St} {fc : GoCallable} {res : COut} {s' : St}
    (h : Call fuel s fc = some (res, s')) : Pres s s' := by
  cases fc with
  | notFunc =>
    simp only [Call, Option.some.injEq, Prod.mk.injEq] at h
    obtain ⟨-, rfl⟩ := h
    exact Pres.refl _
  | fn r =>
    simp only [Call] at h
    split at h
    · exact Option.noConfusion h
    · rename_i e s1 ha
      simp only [Option.some.injEq, Prod.mk.injEq] at h
      obtain ⟨-, rfl⟩ := h
      exact presArguments ha
    · rename_i vs s1 ha
      have hps1 : Pres s s1 := presArguments ha
      split at h
      · simp only [Option.some.injEq, Prod.mk.injEq] at h
        obtain ⟨-, rfl⟩ := h
        exact hps1
      · split at h <;>
          (simp only [Option.some.injEq, Prod.mk.injEq] at h;
           obtain ⟨-, rfl⟩ := h; exact hps1)

theorem presFillLoop {fields : List FieldV} : ∀ {fuel : Nat} {s : St}
    {res : COut × List FieldV} {s' : St},
    fillLoop fuel s fields = some (res, s') → Pres s s' := by
  induction fields with
  | nil =>
    intro fuel s res s' h
    simp only [fillLoop, Option.some.injEq, Prod.mk.injEq] at h
    obtain ⟨-, rfl⟩ := h
    exact Pres.refl _
  | cons fld rest ih =>
    intro fuel s res s' h
    simp only [fillLoop] at h
    split at h
    · split at h
      · exact Option.noConfusion h
      · rename_i out rest1 sx hrec
        simp only [Option.some.injEq, Prod.mk.injEq] at h
        obtain ⟨-, rfl⟩ := h
        exact ih hrec
    · split at h
      · simp only [Option.some.injEq, Prod.mk.injEq] at h
        obtain ⟨-, rfl⟩ := h
        exact Pres.refl _
      · rename_i nm
        split at h
        · rename_i b hl
          split at h
          · exact Option.noConfusion h
          · rename_i fst e s1 hm
            simp only [Option.some.injEq, Prod.mk.injEq] at h
            obtain ⟨-, rfl⟩ := h
            exact presMake hl hm
          · rename_i inst s1 hm
            have hps1 : Pres s s1 := presMake hl hm
            split at h
            · simp only [Option.some.injEq, Prod.mk.injEq] at h
              obtain ⟨-, rfl⟩ := h
              exact hps1
            · rename_i v
              split at h
              · exact Option.noConfusion h
              · rename_i out rest1 s2 hrec
                simp only [Option.some.injEq, Prod.mk.injEq] at h
                obtain ⟨-, rfl⟩ := h
                exact hps1.trans (ih hrec)
        · simp only [Option.some.injEq, Prod.mk.injEq] at h
          obtain ⟨-, rfl⟩ := h
          exact Pres.refl _

theorem presFill {fuel : Nat} {s : St} {sa : StructArg}
    {res : COut × StructArg} {s' : St}
    (h : Fill fuel s sa = some (res, s')) : Pres s s' := by
  cases sa with
  | ptrStruct fields =>
    simp only [Fill] at h
    split at h
    · exact Option.noConfusion h
    · rename_i out fields1 s1 hloop
      simp only [Option.some.injEq, Prod.mk.injEq] at h
      obtain ⟨-, rfl⟩ := h
      exact presFillLoop hloop
  | nilIface =>
    simp only [Fill, Option.some.injEq, Prod.mk.injEq] at h
    obtain ⟨-, rfl⟩ := h
    exact Pres.refl _
  | nonPtr =>
    simp only [Fill, Option.some.injEq, Prod.mk.injEq] at h
    obtain ⟨-, rfl⟩ := h
    exact Pres.refl _
  | ptrNonStruct =>
    simp only [Fill, Option.some.injEq, Prod.mk.injEq] at h
    obtain ⟨-, rfl⟩ := h
    exact Pres.refl _

/-- C2: for every transient binding the cached-instance field is never
populated: resolving the entry itself is exactly a re-invocation of its
resolver, and the entry is stored unchanged (its `concrete` still nil)
across any resolution of it and across any NamedResolve, Call or Fill
operation; consequently two successful resolutions of the same transient
(type, name) entry return instances with distinct allocation identities. -/
theorem C2_transient_distinct :
    (∀ f s t n b, b.isSingleton = false → b.concrete = none →
      make (f + 1) s t n b = invoke f s b.resolver) ∧
    (∀ fuel s t n b out s', ctrLookup s.ctr t n = some b → b.isSingleton = false →
      make fuel s t n b = some (out, s') → ctrLookup s'.ctr t n = some b) ∧
    (∀ fuel s a nm res s' t n b, ctrLookup s.ctr t n = some b →
      b.isSingleton = false → NamedResolve fuel s a nm = some (res, s') →
      ctrLookup s'.ctr t n = some b) ∧
    (∀ fuel s fc res s' t n b, ctrLookup s.ctr t n = some b →
      b.isSingleton = false → Call fuel s fc = some (res, s') →
      ctrLookup s'.ctr t n = some b) ∧
    (∀ fuel s sa res s' t n b, ctrLookup s.ctr t n = some b →
      b.isSingleton = false → Fill fuel s sa = some (res, s') →
      ctrLookup s'.ctr t n = some b) ∧
    (∀ fuel1 fuel2 s t slot1 slot2 nm b v1 v2 s1 s2,
      ctrLookup s.ctr t nm = some b → b.isSingleton = false → b.concrete = none →
      NamedResolve fuel1 s (Abstraction.ptr t slot1) nm =
        some ((COut.ret none, Abstraction.ptr t (some v1)), s1) →
      NamedResolve fuel2 s1 (Abstraction.ptr t slot2) nm =
        some ((COut.ret none, Abstraction.ptr t (some v2)), s2) →
      v1 ≠ v2) := by
  refine ⟨?_, ?_, ?_, ?_, ?_, ?_⟩
  · intro f s t n b hs hc
    simp only [make, hc, hs]
    cases hi : invoke f s b.resolver with
    | none => rfl
    | some res =>
      obtain ⟨⟨retVal, err⟩, s1⟩ := res
      simp
  · intro fuel s t n b out s' hb hs h
    exact (presMake hb h).2.2 t n b hb hs
  · intro fuel s a nm res s' t n b hb hs h
    exact (presNamedResolve h).2.2 t n b hb hs
  · intro fuel s fc res s' t n b hb hs h
    exact (presCall h).2.2 t n b hb hs
  · intro fuel s sa res s' t n b hb hs h
    exact (presFill h).2.2 t n b hb hs
  · intro fuel1 fuel2 s t slot1 slot2 nm b v1 v2 s1 s2 hb hs hc h1 h2
    obtain ⟨b0, hl0, hm0⟩ := namedResolve_ok_inv h1
    rw [hb] at hl0
    cases hl0
    have hbd1 := make_val_bound hc hm0
    have hb1 : ctrLookup s1.ctr t nm = some b := (presMake hb hm0).2.2 t nm b hb hs
    obtain ⟨b0', hl0', hm0'⟩ := namedResolve_ok_inv h2
    rw [hb1] at hl0'
    cases hl0'
    have hbd2 := make_val_bound hc hm0'
    intro heq
    have hid : v1.id = v2.id := congrArg Val.id heq
    have hlt : v1.id < v2.id := Nat.lt_of_lt_of_le hbd1.2 hbd2.1
    rw [hid] at hlt
    exact Nat.lt_irrefl _ hlt

/-- C2 witness: resolving the transient binding of abstraction 0 twice
yields two distinct instances. -/
theorem C2_transient_distinct_witness :
    ({ ty := 0, id := 0 } : Val) ≠ ({ ty := 0, id := 1 } : Val) :=
  C2_transient_distinct.2.2.2.2.2 3 3
    sTrans 0 none none ("") bTrans
    { ty := 0, id := 0 } { ty := 0, id := 1 }
    { ctr := [(0, [("", bTrans)])], fresh := 1 }
    { ctr := [(0, [("", bTrans)])], fresh := 2 }
    rfl rfl rfl rfl rfl

/-- C3 counterexample: for the lazy singleton of abstraction 0 whose
resolver returns a concrete together with an error, the first resolution
returns an error, yet it populates the cache — and the second resolution
then succeeds with the cached instance.  This refutes the claim that only a
successful resolution populates the cache. -/
theorem C3_counterexample :
    NamedResolve 3 sLazyBoth (Abstraction.ptr 0 none) ("") =
      some ((COut.ret (some (Err.wrapped 0 (Err.userErr "boom"))),
        Abstraction.ptr 0 none), sAfterBoom) ∧
    ctrLookup sAfterBoom.ctr 0 ("") = some bBoomCached ∧
    NamedResolve 3 sAfterBoom (Abstraction.ptr 0 none) ("") =
      some ((COut.ret none, Abstraction.ptr 0 (some { ty := 0, id := 0 })),
        sAfterBoom) :=
  ⟨rfl, rfl, rfl⟩

/-- C3 amended: for every singleton binding, the cache is populated no
later than the first resolution — with whatever first value the invocation
of the resolver returned, even together with an error — and once the cache
holds an instance it is returned unchanged by every later resolution with
no recomputation; Reset empties the registry entirely. -/
theorem C3_singleton_cache_amended :
    (∀ fuel s t n b rv re s', ctrLookup s.ctr t n = some b → b.isSingleton = true →
      b.concrete = none → make fuel s t n b = some ((rv, re), s') →
      ∃ b', ctrLookup s'.ctr t n = some b' ∧ b'.concrete = rv ∧
        b'.resolver = b.resolver ∧ b'.isSingleton = true) ∧
    (∀ fuel s t n b v, b.concrete = some v →
      make fuel s t n b = some ((some v, none), s)) ∧
    (∀ c t n, ctrLookup (Reset c) t n = none) := by
  refine ⟨?_, ?_, ?_⟩
  · intro fuel s t n b rv re s' hb hsing hc h
    exact make_sets_cache hb hsing hc h
  · intro fuel s t n b v hv
    exact make_cached hv
  · intro c t n
    rfl

/-- C3 witness: the first (failing) resolution of the lazy error-returning
singleton caches the returned concrete. -/
theorem C3_singleton_cache_amended_witness :
    ∃ b', ctrLookup sAfterBoom.ctr 0 ("") = some b' ∧
      b'.concrete = some { ty := 0, id := 0 } ∧
      b'.resolver = bLazyBoth.resolver ∧ b'.isSingleton = true :=
  C3_singleton_cache_amended.1 3 sLazyBoth 0 ("") bLazyBoth
    (some { ty := 0, id := 0 }) (some (Err.userErr "boom")) sAfterBoom
    rfl rfl rfl rfl

/-- C4 counterexample: binding an eager singleton whose resolver depends on
the lazily bound abstraction 0 and then fails returns an error and stores
no entry, but it still mutates the registry: the dependency's singleton
cache is populated by the eager invocation.  This refutes the strict
reading that a failing Bind leaves the registry unmutated. -/
theorem C4_counterexample :
    bind 5 sDepLazy (GoFunc.fn rDep) ("") true false =
      some (some (Err.userErr "x"), sDepAfter) ∧
    ctrLookup sDepLazy.ctr 0 ("") = some bLazyEager ∧
    ctrLookup sDepAfter.ctr 0 ("") = some bEagerCached :=
  ⟨rfl, rfl, rfl⟩

/-- C4 amended: Bind is atomic at binding-entry granularity.  Whenever it
returns an error — non-function resolver, invalid signature, or failing
eager invocation — no binding entry is stored for the (return type, name)
pair and no entry anywhere is added, removed or rebound: every (type, name)
keeps its presence, resolver and mode, although the eager invocation may
populate singleton caches of already-bound entries (and an empty bucket for
the return type may be created).  On success exactly the (return type,
name) entry is written, and every other entry keeps its presence, resolver
and mode. -/
theorem C4_bind_atomic_amended :
    (∀ fuel s name sing lazy out s',
      bind fuel s GoFunc.notFunc name sing lazy = some (out, s') →
      out = some Err.resolverNotFunc ∧ s' = s) ∧
    (∀ fuel s r name sing lazy e s',
      bind fuel s (GoFunc.fn r) name sing lazy = some (some e, s') →
      (∀ t n, Option.map skel (ctrLookup s'.ctr t n) =
        Option.map skel (ctrLookup s.ctr t n)) ∧ s.fresh ≤ s'.fresh) ∧
    (∀ fuel s r name sing lazy s',
      bind fuel s (GoFunc.fn r) name sing lazy = some (none, s') →
      (∃ b', ctrLookup s'.ctr r.retTy name = some b' ∧ b'.resolver = r ∧
        b'.isSingleton = sing) ∧
      (∀ t n, ¬(t = r.retTy ∧ n = name) →
        Option.map skel (ctrLookup s'.ctr t n) =
          Option.map skel (ctrLookup s.ctr t n))) := by
  refine ⟨?_, ?_, ?_⟩
  · intro fuel s name sing lazy out s' h
    simp only [bind, Option.some.injEq, Prod.mk.injEq] at h
    exact ⟨h.1.symm, h.2.symm⟩
  · intro fuel s r name sing lazy e s' h
    simp only [bind] at h
    have hens : ∀ t n, ctrLookup
        (if r.numOut > 0 then { s with ctr := ctrEnsureTy s.ctr r.retTy } else s).ctr t n =
        ctrLookup s.ctr t n := by
      intro t n
      split
      · exact ctrLookup_ctrEnsureTy s.ctr r.retTy t n
      · rfl
    have hensf : (if r.numOut > 0 then
        { s with ctr := ctrEnsureTy s.ctr r.retTy } else s).fresh = s.fresh := by
      split <;> rfl
    split at h
    · rename_i e0 hval
      simp only [Option.some.injEq, Prod.mk.injEq] at h
      obtain ⟨-, rfl⟩ := h
      constructor
      · intro t n
        rw [hens]
      · rw [hensf]
    · split at h
      · simp at h
      · split at h
        · exact Option.noConfusion h
        · rename_i cv e1 s1 hi
          have hps1 := presInvoke hi
          simp only [Option.some.injEq, Prod.mk.injEq] at h
          obtain ⟨-, rfl⟩ := h
          constructor
          · intro t n
            rw [hps1.2.1 t n, hens]
          · rw [← hensf]
            exact hps1.1
        · rename_i cv s1 hi
          simp at h
  · intro fuel s r name sing lazy s' h
    simp only [bind] at h
    have hens : ∀ t n, ctrLookup
        (if r.numOut > 0 then { s with ctr := ctrEnsureTy s.ctr r.retTy } else s).ctr t n =
        ctrLookup s.ctr t n := by
      intro t n
      split
      · exact ctrLookup_ctrEnsureTy s.ctr r.retTy t n
      · rfl
    split at h
    · simp at h
    · split at h
      · simp only [Option.some.injEq, Prod.mk.injEq] at h
        obtain ⟨-, rfl⟩ := h
        constructor
        · refine ⟨{ resolver := r, concrete := none, isSingleton := sing }, ?_, rfl, rfl⟩
          show ctrLookup (ctrSetEntry _ r.retTy name _) r.retTy name = _
          rw [ctrLookup_ctrSetEntry, if_pos ⟨rfl, rfl⟩]
        · intro t n hne
          show Option.map skel (ctrLookup (ctrSetEntry _ r.retTy name _) t n) = _
          rw [ctrLookup_ctrSetEntry, if_neg (fun hx => hne ⟨hx.1.symm, hx.2.symm⟩), hens]
      · split at h
        · exact Option.noConfusion h
        · rename_i cv e1 s1 hi
          simp at h
        · rename_i cv s1 hi
          have hps1 := presInvoke hi
          simp only [Option.some.injEq, Prod.mk.injEq] at h
          obtain ⟨-, rfl⟩ := h
          constructor
          · refine ⟨if sing then { resolver := r, concrete := cv, isSingleton := true }
              else { resolver := r, concrete := none, isSingleton := false }, ?_, ?_, ?_⟩
            · show ctrLookup (ctrSetEntry _ r.retTy name _) r.retTy name = _
              rw [ctrLookup_ctrSetEntry, if_pos ⟨rfl, rfl⟩]
            · cases sing <;> rfl
            · cases sing <;> rfl
          · intro t n hne
            show Option.map skel (ctrLookup (ctrSetEntry _ r.retTy name _) t n) = _
            rw [ctrLookup_ctrSetEntry, if_neg (fun hx => hne ⟨hx.1.symm, hx.2.symm⟩),
              hps1.2.1 t n, hens]

/-- C4 witness: the failing bind of `rDep` stores no entry for its return
type: the (1, "") lookup still misses afterwards. -/
theorem C4_bind_atomic_amended_witness :
    Option.map skel (ctrLookup sDepAfter.ctr 1 ("")) =
      Option.map skel (ctrLookup sDepLazy.ctr 1 ("")) :=
  (C4_bind_atomic_amended.2.1 5 sDepLazy rDep ("") true false
    (Err.userErr "x") sDepAfter rfl).1 1 ("")

/-- C5 counterexample: with no arguments to resolve, a receiver returning a
single non-error value of a non-nilable kind (such as `func() int`) makes
Call panic inside `reflect.Value.IsNil` rather than return
`InvalidReceiverSignatureError`; and a receiver returning a single nil
non-error value of a nilable kind makes Call return nil (success) rather
than that error. -/
theorem C5_counterexample :
    Call 1 sEmpty (GoCallable.fn { params := [], rets := RetShape.valueRet }) =
      some (COut.panicked, sEmpty) ∧
    Call 1 sEmpty (GoCallable.fn { params := [], rets := RetShape.nilableRet true }) =
      some (COut.ret none, sEmpty) :=
  ⟨rfl, rfl⟩

/-- C5 amended: for a receiver whose arguments all resolve (to non-nil
instances): no return values or a nil single result of error type or of
any nilable kind yield a nil result; a non-nil single error result is
surfaced; a non-nil single non-error result of a nilable kind and two or
more results yield InvalidReceiverSignatureError; a single result of a
non-nilable kind panics in `reflect.Value.IsNil`. -/
theorem C5_call_returns_amended :
    ∀ fuel s ps vs s1, arguments fuel s ps = some (Except.ok vs, s1) →
      ¬(none ∈ vs) →
      (Call fuel s (GoCallable.fn { params := ps, rets := RetShape.unitRet }) =
        some (COut.ret none, s1)) ∧
      (Call fuel s (GoCallable.fn { params := ps, rets := RetShape.errRet none }) =
        some (COut.ret none, s1)) ∧
      (∀ e, Call fuel s (GoCallable.fn { params := ps, rets := RetShape.errRet (some e) }) =
        some (COut.ret (some (Err.userErr e)), s1)) ∧
      (Call fuel s (GoCallable.fn { params := ps, rets := RetShape.nilableRet true }) =
        some (COut.ret none, s1)) ∧
      (Call fuel s (GoCallable.fn { params := ps, rets := RetShape.nilableRet false }) =
        some (COut.ret (some Err.invalidReceiverSig), s1)) ∧
      (Call fuel s (GoCallable.fn { params := ps, rets := RetShape.valueRet }) =
        some (COut.panicked, s1)) ∧
      (Call fuel s (GoCallable.fn { params := ps, rets := RetShape.multiRet }) =
        some (COut.ret (some Err.invalidReceiverSig), s1)) := by
  intro fuel s ps vs s1 ha hvs
  refine ⟨?_, ?_, ?_, ?_, ?_, ?_, ?_⟩
  · simp only [Call, ha, if_neg hvs]
  · simp only [Call, ha, if_neg hvs]
  · intro e
    simp only [Call, ha, if_neg hvs]
  · simp only [Call, ha, if_neg hvs]
  · simp only [Call, ha, if_neg hvs]
  · simp only [Call, ha, if_neg hvs]
  · simp only [Call, ha, if_neg hvs]

/-- C5 witness: with no arguments, the non-nilable single-result receiver
panics. -/
theorem C5_call_returns_amended_witness :
    Call 1 sEmpty (GoCallable.fn { params := [], rets := RetShape.valueRet }) =
      some (COut.panicked, sEmpty) :=
  (C5_call_returns_amended 1 sEmpty [] [] sEmpty rfl (by simp)).2.2.2.2.2.1

/-- C6: Fill field handling.  A field without a `container` tag is passed
through untouched and contributes no error; a field with an unrecognized
tag value aborts with an invalid-tag error; a field tagged `type` is
resolved by its declared type under the empty binding name and a field
tagged `name` by its declared type under the field's own identifier — in
both cases a missing binding aborts with a cannot-make-field error and a
resolution error aborts with that error, leaving the current and later
fields at their prior values, while a successful resolution writes the
instance into the field and continues; on the spec's example (one
`type`-tagged field of a cached singleton type and one untagged field),
Fill sets only the tagged field and returns no error. -/
theorem C6_fill_fields :
    (∀ fuel s (fld : FieldV) rest out fields1 s1, fld.tag = none →
      fillLoop fuel s (fld :: rest) = some ((out, fields1), s1) →
      ∃ rest1, fields1 = fld :: rest1 ∧ fillLoop fuel s rest = some ((out, rest1), s1)) ∧
    (∀ fuel s (fld : FieldV) rest tg, fld.tag = some tg → tg ≠ "type" → tg ≠ "name" →
      fillLoop fuel s (fld :: rest) =
        some ((COut.ret (some (Err.invalidFieldTag fld.fname)), fld :: rest), s)) ∧
    (∀ fuel s (fld : FieldV) rest, fld.tag = some ("type") →
      ctrLookup s.ctr fld.fty ("") = none →
      fillLoop fuel s (fld :: rest) =
        some ((COut.ret (some (Err.cannotMakeField fld.fname)), fld :: rest), s)) ∧
    (∀ fuel s (fld : FieldV) rest, fld.tag = some ("name") →
      ctrLookup s.ctr fld.fty fld.fname = none →
      fillLoop fuel s (fld :: rest) =
        some ((COut.ret (some (Err.cannotMakeField fld.fname)), fld :: rest), s)) ∧
    (∀ fuel s (fld : FieldV) rest b v s1 out rest1 s2, fld.tag = some ("type") →
      ctrLookup s.ctr fld.fty ("") = some b →
      make fuel s fld.fty ("") b = some ((some v, none), s1) →
      fillLoop fuel s1 rest = some ((out, rest1), s2) →
      fillLoop fuel s (fld :: rest) =
        some ((out, { fld with fval := some v } :: rest1), s2)) ∧
    (∀ fuel s (fld : FieldV) rest b v s1 out rest1 s2, fld.tag = some ("name") →
      ctrLookup s.ctr fld.fty fld.fname = some b →
      make fuel s fld.fty fld.fname b = some ((some v, none), s1) →
      fillLoop fuel s1 rest = some ((out, rest1), s2) →
      fillLoop fuel s (fld :: rest) =
        some ((out, { fld with fval := some v } :: rest1), s2)) ∧
    (∀ fuel s (fld : FieldV) rest b inst e s1, fld.tag = some ("type") →
      ctrLookup s.ctr fld.fty ("") = some b →
      make fuel s fld.fty ("") b = some ((inst, some e), s1) →
      fillLoop fuel s (fld :: rest) = some ((COut.ret (some e), fld :: rest), s1)) ∧
    (∀ fuel s t b v nmA nmB tyU fvA fvB,
      ctrLookup s.ctr t ("") = some b → b.concrete = some v →
      Fill fuel s (StructArg.ptrStruct
        [{ fname := nmA, fty := t, tag := some ("type"), fval := fvA },
         { fname := nmB, fty := tyU, tag := none, fval := fvB }]) =
      some ((COut.ret none, StructArg.ptrStruct
        [{ fname := nmA, fty := t, tag := some ("type"), fval := some v },
         { fname := nmB, fty := tyU, tag := none, fval := fvB }]), s)) := by
  refine ⟨?_, ?_, ?_, ?_, ?_, ?_, ?_, ?_⟩
  · intro fuel s fld rest out fields1 s1 htag h
    simp only [fillLoop, htag] at h
    split at h
    · exact Option.noConfusion h
    · rename_i o rest1 sx hrec
      simp only [Option.some.injEq, Prod.mk.injEq] at h
      obtain ⟨⟨rfl, rfl⟩, rfl⟩ := h
      exact ⟨rest1, rfl, hrec⟩
  · intro fuel s fld rest tg htag h1 h2
    simp only [fillLoop, htag, if_neg h1, if_neg h2]
  · intro fuel s fld rest htag hl
    simp only [fillLoop, htag, if_true, hl]
  · intro fuel s fld rest htag hl
    simp [fillLoop, htag, hl]
  · intro fuel s fld rest b v s1 out rest1 s2 htag hl hm hrec
    simp only [fillLoop, htag, if_true, hl, hm, hrec]
  · intro fuel s fld rest b v s1 out rest1 s2 htag hl hm hrec
    simp [fillLoop, htag, hl, hm, hrec]
  · intro fuel s fld rest b inst e s1 htag hl hm
    simp only [fillLoop, htag, if_true, hl, hm]
  · intro fuel s t b v nmA nmB tyU fvA fvB hl hv
    simp only [Fill, fillLoop, if_true, hl, make_cached hv]

/-- C6 witness: filling a two-field struct against the cached singleton
registry sets the `type`-tagged field to the cached instance and leaves the
untagged field at its prior value, with no error. -/
theorem C6_fill_fields_witness :
    Fill 1 sCached (StructArg.ptrStruct
      [{ fname := "A", fty := 0, tag := some ("type"), fval := none },
       { fname := "B", fty := 5, tag := none, fval := none }]) =
    some ((COut.ret none, StructArg.ptrStruct
      [{ fname := "A", fty := 0, tag := some ("type"), fval := some { ty := 0, id := 0 } },
       { fname := "B", fty := 5, tag := none, fval := none }]), sCached) :=
  C6_fill_fields.2.2.2.2.2.2.2 1 sCached 0 bCached { ty := 0, id := 0 }
    "A" "B" 5 none none rfl rfl

theorem invoke_params_nil_inv {fuel : Nat} {s : St} {r : Resolver}
    {out : Option Val × Option Err} {s' : St}
    (hp : r.params = []) (h : invoke fuel s r = some (out, s')) :
    s'.ctr = s.ctr ∧ s'.fresh = s.fresh + 1 := by
  cases fuel with
  | zero =>
    simp only [invoke] at h
    exact Option.noConfusion h
  | succ f =>
    simp only [invoke, hp] at h
    cases f with
    | zero =>
      simp only [arguments] at h
      exact Option.noConfusion h
    | succ f1 =>
      simp only [arguments] at h
      simp only [Option.some.injEq, Prod.mk.injEq] at h
      obtain ⟨-, rfl⟩ := h
      exact ⟨rfl, rfl⟩

/-- C7: named bindings are isolated.  A bind of a dependency-free resolver
under some name leaves every other (type, name) entry — in particular the
same type under any other name — exactly as it was, cached instance
included; and when a type has a cached singleton under the empty name and
another under a non-empty name, resolving the empty name returns exactly
the unnamed entry's instance and resolving the other name returns exactly
the named entry's instance, each leaving the state unchanged. -/
theorem C7_named_isolation :
    (∀ fuel s r nm sing lazy out s', r.params = [] →
      bind fuel s (GoFunc.fn r) nm sing lazy = some (out, s') →
      ∀ t' n', ¬(t' = r.retTy ∧ n' = nm) →
        ctrLookup s'.ctr t' n' = ctrLookup s.ctr t' n') ∧
    (∀ fuel s t nm b1 b2 v1 v2 slot1 slot2,
      ctrLookup s.ctr t ("") = some b1 → b1.concrete = some v1 →
      ctrLookup s.ctr t nm = some b2 → b2.concrete = some v2 →
      NamedResolve fuel s (Abstraction.ptr t slot1) ("") =
        some ((COut.ret none, Abstraction.ptr t (some v1)), s) ∧
      NamedResolve fuel s (Abstraction.ptr t slot2) nm =
        some ((COut.ret none, Abstraction.ptr t (some v2)), s)) := by
  constructor
  · intro fuel s r nm sing lazy out s' hp h t' n' hne
    simp only [bind] at h
    have hens : ctrLookup
        (if r.numOut > 0 then { s with ctr := ctrEnsureTy s.ctr r.retTy } else s).ctr t' n' =
        ctrLookup s.ctr t' n' := by
      split
      · exact ctrLookup_ctrEnsureTy s.ctr r.retTy t' n'
      · rfl
    split at h
    · simp only [Option.some.injEq, Prod.mk.injEq] at h
      obtain ⟨-, rfl⟩ := h
      exact hens
    · split at h
      · simp only [Option.some.injEq, Prod.mk.injEq] at h
        obtain ⟨-, rfl⟩ := h
        show ctrLookup (ctrSetEntry _ r.retTy nm _) t' n' = _
        rw [ctrLookup_ctrSetEntry, if_neg (fun hx => hne ⟨hx.1.symm, hx.2.symm⟩), hens]
      · split at h
        · exact Option.noConfusion h
        · rename_i cv e1 s1 hi
          obtain ⟨hctr, -⟩ := invoke_params_nil_inv hp hi
          simp only [Option.some.injEq, Prod.mk.injEq] at h
          obtain ⟨-, rfl⟩ := h
          rw [← hens, ← hctr]
        · rename_i cv s1 hi
          obtain ⟨hctr, -⟩ := invoke_params_nil_inv hp hi
          simp only [Option.some.injEq, Prod.mk.injEq] at h
          obtain ⟨-, rfl⟩ := h
          show ctrLookup (ctrSetEntry _ r.retTy nm _) t' n' = _
          rw [ctrLookup_ctrSetEntry, if_neg (fun hx => hne ⟨hx.1.symm, hx.2.symm⟩),
            hctr, hens]
  · intro fuel s t nm b1 b2 v1 v2 slot1 slot2 hb1 hv1 hb2 hv2
    exact ⟨namedResolve_of_make slot1 hb1 (make_cached hv1),
      namedResolve_of_make slot2 hb2 (make_cached hv2)⟩

/-- C7 witness: with cached singletons of abstraction 0 under the empty
name and under "rounded", each resolution returns its own entry's
instance. -/
theorem C7_named_isolation_witness :
    NamedResolve 1 sTwoNames (Abstraction.ptr 0 none) ("") =
      some ((COut.ret none, Abstraction.ptr 0 (some { ty := 0, id := 0 })), sTwoNames) ∧
    NamedResolve 1 sTwoNames (Abstraction.ptr 0 none) ("rounded") =
      some ((COut.ret none, Abstraction.ptr 0 (some { ty := 0, id := 1 })), sTwoNames) :=
  C7_named_isolation.2 1 sTwoNames 0 ("rounded") bCached bNamedCached
    { ty := 0, id := 0 } { ty := 0, id := 1 } none none rfl rfl rfl rfl

/-- C8: for a (type, name) pair with no binding entry — including every
pair after Reset — NamedResolve, Resolve, Call-style argument resolution
and Call itself return the unbound-abstraction error as a normal error
value, leave the referenced slot and the whole state untouched, and never
panic. -/
theorem C8_unbound_errors :
    (∀ fuel s t slot n, ctrLookup s.ctr t n = none →
      NamedResolve fuel s (Abstraction.ptr t slot) n =
        some ((COut.ret (some (Err.unbound t)), Abstraction.ptr t slot), s)) ∧
    (∀ fuel s t slot, ctrLookup s.ctr t ("") = none →
      Resolve fuel s (Abstraction.ptr t slot) =
        some ((COut.ret (some (Err.unbound t)), Abstraction.ptr t slot), s)) ∧
    (∀ fuel s t ts, ctrLookup s.ctr t ("") = none →
      arguments (fuel + 1) s (t :: ts) = some (Except.error (Err.unbound t), s)) ∧
    (∀ fuel s t ts rets, ctrLookup s.ctr t ("") = none →
      Call (fuel + 1) s (GoCallable.fn { params := t :: ts, rets := rets }) =
        some (COut.ret (some (Err.unbound t)), s)) ∧
    (∀ c t n, ctrLookup (Reset c) t n = none) ∧
    (∀ fuel c k t slot n,
      NamedResolve fuel { ctr := Reset c, fresh := k } (Abstraction.ptr t slot) n =
        some ((COut.ret (some (Err.unbound t)), Abstraction.ptr t slot),
          { ctr := Reset c, fresh := k })) := by
  refine ⟨?_, ?_, ?_, ?_, ?_, ?_⟩
  · intro fuel s t slot n hl
    simp only [NamedResolve, hl]
  · intro fuel s t slot hl
    simp only [Resolve, NamedResolve, hl]
  · intro fuel s t ts hl
    simp only [arguments, hl]
  · intro fuel s t ts rets hl
    simp only [Call, arguments, hl]
  · intro c t n
    rfl
  · intro fuel c k t slot n
    simp only [NamedResolve, Reset, ctrLookup, ctrFindTy]

/-- C8 witness: resolving an unbound pair in the empty registry returns the
unbound error with the slot and state untouched. -/
theorem C8_unbound_errors_witness :
    NamedResolve 1 sEmpty (Abstraction.ptr 7 (some { ty := 9, id := 9 })) ("x") =
      some ((COut.ret (some (Err.unbound 7)),
        Abstraction.ptr 7 (some { ty := 9, id := 9 })), sEmpty) :=
  C8_unbound_errors.1 1 sEmpty 7 (some { ty := 9, id := 9 }) ("x") rfl

/-- C9: every Bind variant rejects a directly self-dependent resolver: when
some parameter type equals the first return type and the return arity is
valid, bind fails with the self-dependency error and stores no entry (only
the empty bucket for the return type may be created — every lookup is
unchanged); with an invalid return arity it fails with the signature error,
again storing nothing.  A resolver whose cycle is longer than one step
(its parameters avoid its own return type) passes validation: deeper
cycles are not detected. -/
theorem C9_self_dependency :
    (∀ fuel s r nm sing lazy, r.retTy ∈ r.params → 1 ≤ r.numOut → r.numOut ≤ 2 →
      bind fuel s (GoFunc.fn r) nm sing lazy =
        some (some Err.selfDependency, { s with ctr := ctrEnsureTy s.ctr r.retTy }) ∧
      (∀ t n, ctrLookup (ctrEnsureTy s.ctr r.retTy) t n = ctrLookup s.ctr t n)) ∧
    (∀ fuel s r nm sing lazy, r.retTy ∈ r.params → (r.numOut = 0 ∨ r.numOut > 2) →
      ∃ e s', bind fuel s (GoFunc.fn r) nm sing lazy = some (some e, s') ∧
        ∀ t n, ctrLookup s'.ctr t n = ctrLookup s.ctr t n) ∧
    (∀ r, (r.numOut = 1 ∨ r.numOut = 2) → ¬(r.retTy ∈ r.params) →
      validateResolverFunction r = none) := by
  refine ⟨?_, ?_, ?_⟩
  · intro fuel s r nm sing lazy hmem h1 h2
    have h0 : r.numOut > 0 := h1
    have hbad : ¬(r.numOut = 0 ∨ r.numOut > 2) := by omega
    have hval : validateResolverFunction r = some Err.selfDependency := by
      simp only [validateResolverFunction, if_neg hbad, if_pos hmem]
    constructor
    · simp only [bind, hval, if_pos h0]
    · intro t n
      exact ctrLookup_ctrEnsureTy s.ctr r.retTy t n
  · intro fuel s r nm sing lazy hmem hbad
    have hval : validateResolverFunction r = some Err.invalidResolverSig := by
      simp only [validateResolverFunction, if_pos hbad]
    refine ⟨Err.invalidResolverSig,
      if r.numOut > 0 then { s with ctr := ctrEnsureTy s.ctr r.retTy } else s, ?_, ?_⟩
    · simp only [bind, hval]
    · intro t n
      split
      · exact ctrLookup_ctrEnsureTy s.ctr r.retTy t n
      · rfl
  · intro r hn hmem
    have hok : ¬(r.numOut = 0 ∨ r.numOut > 2) := by omega
    simp only [validateResolverFunction, if_neg hok, if_neg hmem]

/-- C9 witness: binding the self-dependent resolver fails with the
self-dependency error and stores no entry (only the empty bucket). -/
theorem C9_self_dependency_witness :
    bind 1 sEmpty (GoFunc.fn rSelf) ("") true false =
      some (some Err.selfDependency, { ctr := [(0, [])], fresh := 0 }) :=
  (C9_self_dependency.1 1 sEmpty rSelf ("") true false (by decide)
    (by decide) (by decide)).1

/-- C10: Resolve and NamedResolve write into the caller's slot only on
success: whenever they return a non-nil error the passed abstraction —
including the value referenced by the pointer — is exactly as it was; and
Resolve is NamedResolve at the empty name. -/
theorem C10_error_leaves_slot :
    (∀ fuel s a nm e a1 s',
      NamedResolve fuel s a nm = some ((COut.ret (some e), a1), s') → a1 = a) ∧
    (∀ fuel s a e a1 s',
      Resolve fuel s a = some ((COut.ret (some e), a1), s') → a1 = a) ∧
    (∀ fuel s a, Resolve fuel s a = NamedResolve fuel s a ("")) := by
  have main : ∀ fuel s a nm e a1 s',
      NamedResolve fuel s a nm = some ((COut.ret (some e), a1), s') → a1 = a := by
    intro fuel s a nm e a1 s' h
    cases a with
    | nilIface =>
      simp only [NamedResolve, Option.some.injEq, Prod.mk.injEq] at h
      exact h.1.2.symm
    | nonPtr =>
      simp only [NamedResolve, Option.some.injEq, Prod.mk.injEq] at h
      exact h.1.2.symm
    | ptr t slot =>
      simp only [NamedResolve] at h
      split at h
      · split at h
        · exact Option.noConfusion h
        · split at h
          · simp at h
          · simp at h
        · simp only [Option.some.injEq, Prod.mk.injEq] at h
          exact h.1.2.symm
      · simp only [Option.some.injEq, Prod.mk.injEq] at h
        exact h.1.2.symm
  exact ⟨main, fun fuel s a e a1 s' h => main fuel s a ("") e a1 s' h,
    fun fuel s a => rfl⟩

/-- C10 witness: the failing resolve of an unbound type leaves the
referenced slot exactly as it was. -/
theorem C10_error_leaves_slot_witness :
    Abstraction.ptr 0 (some { ty := 9, id := 9 }) =
      Abstraction.ptr 0 (some { ty := 9, id := 9 }) :=
  C10_error_leaves_slot.1 1 sEmpty (Abstraction.ptr 0 (some { ty := 9, id := 9 }))
    ("") (Err.unbound 0) (Abstraction.ptr 0 (some { ty := 9, id := 9 })) sEmpty rfl

end GoContainer
